import Mathlib

/-!
Shallow embedding of `src/plot.py` (track_isolation): the script reads muon
records from an HDF5 file, splits them on the label column `iffClass`
(4 = prompt, anything else = nonprompt), draws two overlaid 100-bin
histograms of `pt` and saves the figure as `pt.png`.

Numeric cells are modelled as rationals; the label column `iffClass` is an
`Option ℚ` whose `none` stands for a missing value (NaN in the floating
point source data), with the IEEE comparison semantics used by
pandas/numpy: NaN compares unequal to every value.
-/

set_option autoImplicit false
set_option linter.unusedVariables false

/-- A row of the loaded table `df = pd.DataFrame(data, columns=columns)`
with columns `pt`, `eta`, `phi`, `iffClass` (src/plot.py line 13). The
label cell may be missing (`none` models NaN). -/
structure Row where
  pt : ℚ
  eta : ℚ
  phi : ℚ
  iffClass : Option ℚ
deriving DecidableEq

/-- Equality test of a possibly missing cell against a target, with the
pandas/numpy semantics of `df[col] == t`: a missing value (NaN) compares
unequal to everything, so the test is false. -/
def cellEq (x : Option ℚ) (t : ℚ) : Bool :=
  match x with
  | some v => v == t
  | none => false

/-- Inequality test `df[col] != t` with pandas/numpy semantics: true on a
missing value (NaN). -/
def cellNe (x : Option ℚ) (t : ℚ) : Bool :=
  match x with
  | some v => v != t
  | none => true

/-- Selector, src/plot.py line 16: `obj_prompt = df[df[iffClass] == 4]`. -/
def obj_prompt (df : List Row) : List Row :=
  df.filter (fun r => cellEq r.iffClass 4)

/-- Selector, src/plot.py line 17: `obj_nonprompt = df[df[iffClass] != 4]`. -/
def obj_nonprompt (df : List Row) : List Row :=
  df.filter (fun r => cellNe r.iffClass 4)

/-- The selection step seen as a state transformer: it returns the two
subsets and the (unchanged) input table. -/
def selectStep (df : List Row) : (List Row × List Row) × List Row :=
  ((obj_prompt df, obj_nonprompt df), df)

/-- Modelled from the spec: a raw source row of the HDF5 file, a named
record of numeric fields. The reading code (`ftag.hdf5.H5Reader`) is an
external library and not part of src/. -/
abbrev SourceRow := List (String × ℚ)

/-- Modelled from the spec: the content of the HDF5 file, a mapping from
collection name to its list of rows. -/
abbrev H5Content := List (String × List SourceRow)

/-- Modelled from the spec: projection of one source row onto the requested
fields, in the requested order; a requested field absent from the row is an
error that propagates. -/
def projectRow (cols : List String) (r : SourceRow) :
    Except String SourceRow :=
  match cols with
  | [] => .ok []
  | c :: cs =>
    match r.lookup c with
    | none => .error ("requested field absent: " ++ c)
    | some v => (projectRow cs r).map (fun rest => (c, v) :: rest)

/-- Effectful map over a list: the first error encountered propagates,
otherwise the list of results is returned in order. -/
def mapExcept {α β : Type} (f : α → Except String β) :
    List α → Except String (List β)
  | [] => .ok []
  | a :: l =>
    match f a with
    | .error e => .error e
    | .ok b => (mapExcept f l).map (fun t => b :: t)

/-- Modelled from the spec: the bounded read of one named collection: at
most `num_jets` rows, each projected onto the requested fields; a missing
collection is an error that propagates. -/
def loadCollection (file : H5Content) (name : String) (cols : List String)
    (num_jets : Nat) : Except String (List SourceRow) :=
  match file.lookup name with
  | none => .error ("collection absent: " ++ name)
  | some rows => mapExcept (projectRow cols) (rows.take num_jets)

/-- Modelled from the spec: `H5Reader.load` (external `ftag` library,
src/plot.py line 12): given the opened file (`none` when the file is not
found), a requested set of collection-to-field-list projections and a
maximum row count, return the mapping from collection name to the loaded
table; every error condition propagates to the caller. -/
def H5Reader.load (file : Option H5Content)
    (request : List (String × List String)) (num_jets : Nat) :
    Except String (List (String × List SourceRow)) :=
  match file with
  | none => .error "file not found"
  | some f =>
    mapExcept (fun rc =>
      (loadCollection f rc.1 rc.2 num_jets).map (fun t => (rc.1, t))) request

/-- A sample row whose label cell holds the class code `c`; the kinematic
columns are irrelevant to the selector and set to zero. -/
def rowOf (c : ℚ) : Row :=
  ⟨0, 0, 0, some c⟩

/-- A sample row whose label cell is missing (NaN). -/
def rowNaN : Row :=
  ⟨0, 0, 0, none⟩

/-- The synthetic ten-row table with `iffClass` = [4,4,4,5,5,6,6,6,6,6]. -/
def syntheticTable : List Row :=
  [rowOf 4, rowOf 4, rowOf 4, rowOf 5, rowOf 5,
   rowOf 6, rowOf 6, rowOf 6, rowOf 6, rowOf 6]

/-- Minimum of a nonempty list of rationals, given as head and tail. -/
def listMin (x : ℚ) (xs : List ℚ) : ℚ :=
  xs.foldl min x

/-- Maximum of a nonempty list of rationals, given as head and tail. -/
def listMax (x : ℚ) (xs : List ℚ) : ℚ :=
  xs.foldl max x

/-- Modelled from the spec: the auto-derived value range of `ax.hist`
(external matplotlib/numpy, src/plot.py lines 21 and 22): the observed
minimum and maximum of the data, with the numpy fallbacks of `(0, 1)` for
empty data and a half-unit widening when all values coincide. -/
def histRange (data : List ℚ) : ℚ × ℚ :=
  match data with
  | [] => (0, 1)
  | x :: xs =>
    let lo := listMin x xs
    let hi := listMax x xs
    if lo = hi then (lo - 1/2, hi + 1/2) else (lo, hi)

/-- Modelled from the spec: edge `i` of `nbins` equal-width bins spanning
`[lo, hi]`. -/
def binEdge (lo hi : ℚ) (nbins : Nat) (i : Nat) : ℚ :=
  lo + i * (hi - lo) / nbins

/-- Modelled from the spec: the index of the equal-width bin a value falls
in; the last bin is closed on the right, so a value equal to `hi` lands in
bin `nbins - 1`. -/
def binIndex (lo hi : ℚ) (nbins : Nat) (x : ℚ) : Nat :=
  min (nbins - 1) ((x - lo) * nbins / (hi - lo)).floor.toNat

/-- Modelled from the spec: the per-bin occurrence counts computed by
`ax.hist(data, bins=nbins)`: `nbins` equal-width bins spanning the
auto-derived range of the data. -/
def histogram (data : List ℚ) (nbins : Nat) : List Nat :=
  (List.range nbins).map (fun i =>
    data.countP (fun x =>
      binIndex (histRange data).1 (histRange data).2 nbins x == i))

/-- The `pt` column of a table, src/plot.py lines 21 and 22. -/
def ptColumn (rows : List Row) : List ℚ :=
  rows.map Row.pt

/-- The renderer applied to the two subsets: the per-bin counts of the two
overlaid 100-bin histograms of the `pt` column. -/
def renderCounts (s1 s2 : List Row) : List Nat × List Nat :=
  (histogram (ptColumn s1) 100, histogram (ptColumn s2) 100)

/-- Modelled from the spec: the bytes of the image `fig.savefig` persists:
the 8-byte PNG signature followed by an encoding of the rendered counts. -/
def pngBytes (c1 c2 : List Nat) : List Nat :=
  [137, 80, 78, 71, 13, 10, 26, 10] ++ c1 ++ c2

/-- A file system as a mapping from path to byte content. -/
abbrev FileSys := List (String × List Nat)

/-- Modelled from the spec: `fig.savefig` (external matplotlib, src/plot.py
line 26) writes `bytes` at `path`, overwriting any existing file there and
touching nothing else. -/
def savefig (fs : FileSys) (path : String) (bytes : List Nat) : FileSys :=
  (path, bytes) :: fs.filter (fun e => e.1 != path)

/-- The whole plotting run on an already loaded table: select the two
subsets, render both histograms of `pt` and save the figure as `pt.png`. -/
def runPlot (df : List Row) (fs : FileSys) : FileSys :=
  savefig fs "pt.png"
    (pngBytes (renderCounts (obj_prompt df) (obj_nonprompt df)).1
      (renderCounts (obj_prompt df) (obj_nonprompt df)).2)

theorem cellNe_eq_not_cellEq (x : Option ℚ) (t : ℚ) :
    cellNe x t = !cellEq x t := by
  cases x with
  | none => rfl
  | some v => simp [cellEq, cellNe, bne]

theorem length_prompt_add_nonprompt (df : List Row) :
    (obj_prompt df).length + (obj_nonprompt df).length = df.length := by
  induction df with
  | nil => rfl
  | cons r l ih =>
    simp only [obj_prompt, obj_nonprompt, List.filter_cons,
      cellNe_eq_not_cellEq] at *
    cases h : cellEq r.iffClass 4 <;>
      simp [h, List.length_cons] <;> omega

theorem projectRow_ok (cols : List String) (r : SourceRow)
    (h : ∀ c ∈ cols, (r.lookup c).isSome) :
    ∃ out, projectRow cols r = .ok out ∧ out.map Prod.fst = cols := by
  induction cols with
  | nil => exact ⟨[], rfl, rfl⟩
  | cons c cs ih =>
    obtain ⟨v, hv⟩ := Option.isSome_iff_exists.mp (h c (by simp))
    obtain ⟨out, hout, hmap⟩ := ih (fun c hc => h c (by simp [hc]))
    refine ⟨(c, v) :: out, ?_, by simp [hmap]⟩
    simp [projectRow, hv, hout, Except.map]

theorem mapExcept_projectRow_ok (cols : List String) (l : List SourceRow)
    (h : ∀ r ∈ l, ∀ c ∈ cols, (r.lookup c).isSome) :
    ∃ t, mapExcept (projectRow cols) l = .ok t ∧ t.length = l.length
      ∧ ∀ r ∈ t, r.map Prod.fst = cols := by
  induction l with
  | nil => exact ⟨[], rfl, rfl, by simp⟩
  | cons r l ih =>
    obtain ⟨out, hout, hmap⟩ := projectRow_ok cols r (h r (by simp))
    obtain ⟨t, ht, hlen, hall⟩ := ih (fun r hr => h r (by simp [hr]))
    refine ⟨out :: t, ?_, by simp [hlen], ?_⟩
    · simp [mapExcept, hout, ht, Except.map]
    · intro x hx
      rcases List.mem_cons.mp hx with hx | hx
      · exact hx ▸ hmap
      · exact hall x hx

theorem projectRow_error (cols : List String) (r : SourceRow) (c : String)
    (hc : c ∈ cols) (hnone : r.lookup c = none) :
    ∃ m, projectRow cols r = .error m := by
  induction cols with
  | nil => simp at hc
  | cons c0 cs ih =>
    rcases List.mem_cons.mp hc with rfl | hc
    · exact ⟨"requested field absent: " ++ c, by simp [projectRow, hnone]⟩
    · cases hl : r.lookup c0 with
      | none =>
        exact ⟨"requested field absent: " ++ c0, by simp [projectRow, hl]⟩
      | some v =>
        obtain ⟨m, hm⟩ := ih hc
        exact ⟨m, by simp [projectRow, hl, hm, Except.map]⟩

theorem mapExcept_projectRow_error (cols : List String) (l : List SourceRow)
    (r : SourceRow) (hr : r ∈ l) (herr : ∃ m, projectRow cols r = .error m) :
    ∃ m, mapExcept (projectRow cols) l = .error m := by
  induction l with
  | nil => simp at hr
  | cons a l ih =>
    rcases List.mem_cons.mp hr with rfl | hr
    · obtain ⟨m, hm⟩ := herr
      exact ⟨m, by simp [mapExcept, hm]⟩
    · cases ha : projectRow cols a with
      | error m => exact ⟨m, by simp [mapExcept, ha]⟩
      | ok out =>
        obtain ⟨m, hm⟩ := ih hr
        exact ⟨m, by simp [mapExcept, ha, hm, Except.map]⟩

/-- C5: the read operation returns, for the requested collection, at most
the requested number of rows with exactly the requested fields; requesting
more rows than exist returns all available rows without error. -/
theorem load_bounded_projection (f : H5Content) (g : String)
    (cols : List String) (n : Nat) (rows : List SourceRow)
    (hg : f.lookup g = some rows)
    (hfields : ∀ r ∈ rows, ∀ c ∈ cols, (r.lookup c).isSome) :
    ∃ t, H5Reader.load (some f) [(g, cols)] n = .ok [(g, t)]
      ∧ t.length = min n rows.length ∧ t.length ≤ n
      ∧ ∀ r ∈ t, r.map Prod.fst = cols := by
  obtain ⟨t, ht, hlen, hall⟩ :=
    mapExcept_projectRow_ok cols (rows.take n)
      (fun r hr => hfields r (List.take_subset n rows hr))
  refine ⟨t, ?_, ?_, ?_, hall⟩
  · simp [H5Reader.load, mapExcept, loadCollection, hg, ht, Except.map]
  · rw [hlen, List.length_take]
  · rw [hlen, List.length_take]
    exact Nat.min_le_left n rows.length

theorem load_bounded_projection_witness :
    ∃ t,
      H5Reader.load
        (some [("muons", [[("pt", 1), ("eta", 2)], [("pt", 3), ("eta", 4)]])])
        [("muons", ["pt"])] 5 = .ok [("muons", t)]
      ∧ t.length = min 5 [[(("pt" : String), (1 : ℚ)), ("eta", 2)],
          [("pt", 3), ("eta", 4)]].length
      ∧ t.length ≤ 5
      ∧ ∀ r ∈ t, r.map Prod.fst = ["pt"] :=
  load_bounded_projection
    [("muons", [[("pt", 1), ("eta", 2)], [("pt", 3), ("eta", 4)]])]
    "muons" ["pt"] 5 [[("pt", 1), ("eta", 2)], [("pt", 3), ("eta", 4)]]
    (by rfl) (by decide)

/-- C7: every reader error condition propagates to the caller: a missing
file, an absent collection and an absent requested field each make the load
return an error rather than a silently recovered value. -/
theorem load_errors_propagate (f : H5Content) (g : String)
    (cols : List String) (n : Nat) :
    H5Reader.load none [(g, cols)] n = .error "file not found"
      ∧ (f.lookup g = none →
          H5Reader.load (some f) [(g, cols)] n
            = .error ("collection absent: " ++ g))
      ∧ ∀ rows r c, f.lookup g = some rows → r ∈ rows.take n → c ∈ cols →
          r.lookup c = none →
          ∃ m, H5Reader.load (some f) [(g, cols)] n = .error m := by
  refine ⟨rfl, ?_, ?_⟩
  · intro hnone
    simp [H5Reader.load, mapExcept, loadCollection, hnone, Except.map]
  · intro rows r c hg hr hc hlook
    obtain ⟨m, hm⟩ :=
      mapExcept_projectRow_error cols (rows.take n) r hr
        (projectRow_error cols r c hc hlook)
    exact ⟨m,
      by simp [H5Reader.load, mapExcept, loadCollection, hg, hm, Except.map]⟩

theorem load_errors_propagate_witness :
    (H5Reader.load none [("muons", ["pt"])] 5 = .error "file not found")
      ∧ (H5Reader.load (some []) [("muons", ["pt"])] 5
          = .error ("collection absent: " ++ "muons"))
      ∧ ∃ m, H5Reader.load (some [("muons", [[("pt", 1)]])])
          [("muons", ["pt", "iffClass"])] 2 = .error m :=
  ⟨(load_errors_propagate [] "muons" ["pt"] 5).1,
   (load_errors_propagate [] "muons" ["pt"] 5).2.1 rfl,
   (load_errors_propagate [("muons", [[("pt", 1)]])] "muons"
       ["pt", "iffClass"] 2).2.2
     [[("pt", 1)]] [("pt", 1)] "iffClass" rfl (by decide) (by decide) rfl⟩

theorem sum_map_add (L : List Nat) (a b : Nat → Nat) :
    (L.map (fun i => a i + b i)).sum = (L.map a).sum + (L.map b).sum := by
  induction L with
  | nil => rfl
  | cons x L ih =>
    simp only [List.map_cons, List.sum_cons, ih]
    omega

theorem indicator_sum_zero (k n : Nat) (h : n ≤ k) :
    ((List.range n).map (fun i => if k == i then 1 else 0)).sum = 0 := by
  apply List.sum_eq_zero
  intro y hy
  simp only [List.mem_map, List.mem_range] at hy
  obtain ⟨i, hi, rfl⟩ := hy
  have hne : k ≠ i := by omega
  simp [hne]

theorem indicator_sum_one (k n : Nat) (h : k < n) :
    ((List.range n).map (fun i => if k == i then 1 else 0)).sum = 1 := by
  induction n with
  | zero => omega
  | succ n ih =>
    rw [List.range_succ, List.map_append, List.sum_append]
    rcases Nat.lt_or_ge k n with hk | hk
    · rw [ih hk]
      simp only [List.map_cons, List.map_nil, List.sum_cons, List.sum_nil]
      have hne : (k == n) = false := by
        simp only [beq_eq_false_iff_ne]
        omega
      rw [hne]
      simp
    · have hkn : k = n := by omega
      subst hkn
      rw [indicator_sum_zero k k (Nat.le_refl k)]
      simp

theorem countP_bucket_sum (f : ℚ → Nat) (d : List ℚ) (n : Nat)
    (h : ∀ x ∈ d, f x < n) :
    ((List.range n).map (fun i => d.countP (fun x => f x == i))).sum
      = d.length := by
  induction d with
  | nil =>
    apply List.sum_eq_zero
    intro y hy
    simp only [List.mem_map] at hy
    obtain ⟨i, hi, rfl⟩ := hy
    exact List.countP_nil _
  | cons x d ih =>
    have hx := h x (by simp)
    have hd : ∀ y ∈ d, f y < n := fun y hy => h y (by simp [hy])
    simp only [List.countP_cons]
    rw [sum_map_add (List.range n) (fun i => d.countP (fun y => f y == i))
      (fun i => if f x == i then 1 else 0)]
    rw [ih hd, indicator_sum_one (f x) n hx]
    simp

theorem binIndex_lt (lo hi : ℚ) (n : Nat) (x : ℚ) (hn : 0 < n) :
    binIndex lo hi n x < n :=
  Nat.lt_of_le_of_lt (Nat.min_le_left _ _) (Nat.sub_lt hn Nat.one_pos)

theorem histogram_length (d : List ℚ) (n : Nat) :
    (histogram d n).length = n := by
  simp [histogram]

theorem histogram_sum (d : List ℚ) (n : Nat) (hn : 0 < n) :
    (histogram d n).sum = d.length := by
  unfold histogram
  exact countP_bucket_sum _ d n (fun x hx => binIndex_lt _ _ n x hn)

theorem histogram_nil (n : Nat) : histogram [] n = List.replicate n 0 := by
  simp only [histogram, List.countP_nil]
  rw [List.map_const']
  simp

theorem lookup_filter_ne (l : FileSys) (p k : String) (h : p ≠ k) :
    (l.filter (fun e => e.1 != k)).lookup p = l.lookup p := by
  induction l with
  | nil => rfl
  | cons a l ih =>
    rcases a with ⟨q, v⟩
    by_cases hk : q = k
    · subst hk
      have h1 : (q != q) = false := by simp
      have h2 : (p == q) = false := beq_eq_false_iff_ne.mpr h
      simp [List.filter_cons, h1, List.lookup, h2, ih]
    · have h1 : (q != k) = true := by simp [bne, hk]
      cases hqp : (p == q) with
      | true => simp [List.filter_cons, h1, List.lookup, hqp]
      | false => simp [List.filter_cons, h1, List.lookup, hqp, ih]

/-- C1: for every loaded table whose label column `iffClass` contains no
missing values, the two selector outputs partition the table: the number of
rows with `iffClass == 4` plus the number of rows with `iffClass != 4`
equals the number of rows of the loaded table. -/
theorem prompt_nonprompt_partition (df : List Row)
    (h : ∀ r ∈ df, r.iffClass.isSome) :
    (obj_prompt df).length + (obj_nonprompt df).length = df.length :=
  length_prompt_add_nonprompt df

theorem prompt_nonprompt_partition_witness :
    (obj_prompt [rowOf 4, rowOf 5]).length
      + (obj_nonprompt [rowOf 4, rowOf 5]).length
      = [rowOf 4, rowOf 5].length :=
  prompt_nonprompt_partition [rowOf 4, rowOf 5] (by decide)

/-- C2: the prompt and nonprompt subsets are disjoint: a row selected into
the prompt subset is never selected into the nonprompt subset, since no row
satisfies both `iffClass == 4` and `iffClass != 4`. -/
theorem prompt_nonprompt_disjoint (df : List Row) (r : Row)
    (h : r ∈ obj_prompt df) : r ∉ obj_nonprompt df := by
  intro hn
  simp only [obj_prompt, List.mem_filter] at h
  simp only [obj_nonprompt, List.mem_filter] at hn
  have h2 := hn.2
  rw [cellNe_eq_not_cellEq] at h2
  simp [h.2] at h2

theorem prompt_nonprompt_disjoint_witness :
    rowOf 4 ∉ obj_nonprompt [rowOf 4, rowOf 5] :=
  prompt_nonprompt_disjoint [rowOf 4, rowOf 5] (rowOf 4) (by decide)

/-- C6: the selector is pure and deterministic: it leaves the input table
unchanged, and running the selection again on the (unchanged) table yields
the identical pair of subsets. -/
theorem selectStep_pure_deterministic (df : List Row) :
    (selectStep df).2 = df ∧ selectStep ((selectStep df).2) = selectStep df :=
  ⟨rfl, rfl⟩

/-- C9: on the synthetic ten-row table whose `iffClass` column is
[4,4,4,5,5,6,6,6,6,6], the prompt subset has exactly 3 rows and the
nonprompt subset exactly 7 rows. -/
theorem synthetic_prompt_nonprompt_counts :
    (obj_prompt syntheticTable).length = 3
      ∧ (obj_nonprompt syntheticTable).length = 7 := by
  decide

/-- C10: a row whose `iffClass` cell is missing (NaN) is never placed in the
prompt subset and, when present in the table, always lands in the nonprompt
subset; consequently the partition-sum property holds for every table, with
or without missing label values. -/
theorem missing_label_goes_nonprompt (df : List Row) (r : Row)
    (hmiss : r.iffClass = none) :
    r ∉ obj_prompt df ∧ (r ∈ df → r ∈ obj_nonprompt df)
      ∧ (obj_prompt df).length + (obj_nonprompt df).length = df.length := by
  refine ⟨?_, ?_, length_prompt_add_nonprompt df⟩
  · intro h
    simp only [obj_prompt, List.mem_filter] at h
    have h1 := h.2
    rw [hmiss] at h1
    simp [cellEq] at h1
  · intro hdf
    simp only [obj_nonprompt, List.mem_filter]
    exact ⟨hdf, by rw [hmiss]; rfl⟩

theorem missing_label_goes_nonprompt_witness :
    rowNaN ∉ obj_prompt [rowNaN, rowOf 4]
      ∧ (rowNaN ∈ [rowNaN, rowOf 4] → rowNaN ∈ obj_nonprompt [rowNaN, rowOf 4])
      ∧ (obj_prompt [rowNaN, rowOf 4]).length
          + (obj_nonprompt [rowNaN, rowOf 4]).length
          = [rowNaN, rowOf 4].length :=
  missing_label_goes_nonprompt [rowNaN, rowOf 4] rowNaN rfl

/-- C3: the renderer bins each subset of rows into exactly 100 equal-width
bins of the `pt` column, spanning the observed value range auto-derived
from the data of that subset, and the per-bin counts of each subset account
for every one of its values. -/
theorem renderer_hundred_equal_bins (s1 s2 : List Row) :
    (renderCounts s1 s2).1.length = 100
      ∧ (renderCounts s1 s2).2.length = 100
      ∧ (renderCounts s1 s2).1.sum = (ptColumn s1).length
      ∧ (renderCounts s1 s2).2.sum = (ptColumn s2).length
      ∧ (∀ (x : ℚ) (xs : List ℚ), listMin x xs < listMax x xs →
          histRange (x :: xs) = (listMin x xs, listMax x xs))
      ∧ (∀ (lo hi : ℚ) (i : Nat),
          binEdge lo hi 100 (i + 1) - binEdge lo hi 100 i = (hi - lo) / 100)
      ∧ (∀ lo hi : ℚ, binEdge lo hi 100 0 = lo ∧ binEdge lo hi 100 100 = hi)
    := by
  refine ⟨histogram_length _ _, histogram_length _ _,
    histogram_sum _ _ (by norm_num), histogram_sum _ _ (by norm_num),
    ?_, ?_, ?_⟩
  · intro x xs h
    have hne : ¬ listMin x xs = listMax x xs := ne_of_lt h
    simp [histRange, hne]
  · intro lo hi i
    simp only [binEdge]
    push_cast
    ring
  · intro lo hi
    constructor
    · simp [binEdge]
    · simp only [binEdge]
      push_cast
      ring

/-- C4: a label partition with zero rows is not an error: its histogram is
all-zero counts, and the run still writes a valid nonempty image file; this
holds in particular for the empty input table, where both subsets are
empty. -/
theorem renderer_empty_subset (df : List Row) (fs : FileSys) :
    (obj_prompt df = [] →
      (renderCounts (obj_prompt df) (obj_nonprompt df)).1
        = List.replicate 100 0)
      ∧ (obj_nonprompt df = [] →
          (renderCounts (obj_prompt df) (obj_nonprompt df)).2
            = List.replicate 100 0)
      ∧ ∃ b, (runPlot df fs).lookup "pt.png" = some b ∧ b ≠ [] := by
  refine ⟨?_, ?_, ?_⟩
  · intro h
    show histogram (ptColumn (obj_prompt df)) 100 = _
    rw [h]
    exact histogram_nil 100
  · intro h
    show histogram (ptColumn (obj_nonprompt df)) 100 = _
    rw [h]
    exact histogram_nil 100
  · refine ⟨pngBytes (renderCounts (obj_prompt df) (obj_nonprompt df)).1
      (renderCounts (obj_prompt df) (obj_nonprompt df)).2, ?_, ?_⟩
    · simp [runPlot, savefig, List.lookup]
    · simp [pngBytes]

/-- C8: a run writes exactly one file, the image `pt.png`, which afterwards
exists with nonempty content (any previous file at that path is replaced by
the new content); every other path of the file system is untouched. -/
theorem run_writes_single_output (df : List Row) (fs : FileSys) :
    ((runPlot df fs).lookup "pt.png"
        = some (pngBytes (renderCounts (obj_prompt df) (obj_nonprompt df)).1
            (renderCounts (obj_prompt df) (obj_nonprompt df)).2))
      ∧ (∃ b, (runPlot df fs).lookup "pt.png" = some b ∧ b ≠ [])
      ∧ ∀ p, p ≠ "pt.png" → (runPlot df fs).lookup p = fs.lookup p := by
  refine ⟨?_, ?_, ?_⟩
  · simp [runPlot, savefig, List.lookup]
  · refine ⟨pngBytes (renderCounts (obj_prompt df) (obj_nonprompt df)).1
      (renderCounts (obj_prompt df) (obj_nonprompt df)).2, ?_, ?_⟩
    · simp [runPlot, savefig, List.lookup]
    · simp [pngBytes]
  · intro p hp
    show (savefig fs "pt.png" _).lookup p = fs.lookup p
    have h2 : (p == "pt.png") = false := beq_eq_false_iff_ne.mpr hp
    simp only [savefig, List.lookup, h2]
    exact lookup_filter_ne fs p "pt.png" hp
